import Mathlib

/-!
Verification of the el-init interactive installer core: the menu tree data
model, the selected-item collection pass, the shell-script generator
(`src/main.rs`), and the catalog / tree builder (`src/scripts.rs`).

Modelling conventions:
* `fn() -> &'static str` action functions are pure constants, so an item's
  `script_fn` field is embedded as the `String` that the function returns.
* `Rc<RefCell<MenuNode>>` shared references into the tree are embedded as
  addresses (`List Nat` child-index paths); mutation through a reference
  becomes a functional update of the tree at that address.
* `Vec` accumulators passed by `&mut` become explicit accumulator arguments.
-/

set_option maxRecDepth 16384

namespace ElInit

/-- `ScriptCategory` from src/main.rs: controls execution order. -/
inductive ScriptCategory where
  | Repository
  | General
deriving DecidableEq, Repr

/-- `SelectedItem` from src/main.rs: info about one selected item. -/
structure SelectedItem where
  name : String
  script_fn : String
  category : ScriptCategory
deriving DecidableEq, Repr

/-- `MenuNode` from src/main.rs: a selectable item or a sub-menu. -/
inductive MenuNode where
  | Item (name : String) (script_fn : String) (selected : Bool) (category : ScriptCategory)
  | Menu (name : String) (children : List MenuNode)
deriving Repr

/-- `OsDistribution` from src/main.rs. -/
inductive OsDistribution where
  | Rhel
  | Centos
  | Rocky
  | AlmaLinux
  | Unknown
deriving DecidableEq, Repr

/-- The string `format!("{:?}", os)` produces for an `OsDistribution` value. -/
def OsDistribution.debugFmt : OsDistribution → String
  | .Rhel => "Rhel"
  | .Centos => "Centos"
  | .Rocky => "Rocky"
  | .AlmaLinux => "AlmaLinux"
  | .Unknown => "Unknown"

mutual

/-- `MenuNode::get_selected_items_info` from src/main.rs: recursively pushes
info about all selected items onto the `items` vector (embedded as an
accumulator argument; `Vec::push` is append at the end). -/
def get_selected_items_info : MenuNode → List SelectedItem → List SelectedItem
  | MenuNode.Item name script_fn selected category, items =>
      if selected then items ++ [⟨name, script_fn, category⟩] else items
  | MenuNode.Menu _ children, items => gsii_children children items

/-- The `for child in children` loop inside `get_selected_items_info`. -/
def gsii_children : List MenuNode → List SelectedItem → List SelectedItem
  | [], items => items
  | c :: rest, items => gsii_children rest (get_selected_items_info c items)

end

/-- The body of the per-item loops in `App::generate_commands`
(src/main.rs lines 166-170 and 176-180): for each item, a `print_step`
banner line, then the raw script text, then one pushed newline. -/
def renderItems : List SelectedItem → String
  | [] => ""
  | item :: rest =>
      "print_step \"" ++ item.name ++ "\"\n" ++ item.script_fn ++ "\n" ++ renderItems rest

/-- `App::generate_commands` from src/main.rs (lines 143-192), as a function
of the menu tree, the detected OS and the reboot flag (the three pieces of
`App` state it reads). -/
def generate_commands (os_distro : OsDistribution) (menu_tree : MenuNode) (reboot : Bool) :
    String :=
  let items := get_selected_items_info menu_tree []
  let repos := items.filter (fun i => i.category == ScriptCategory.Repository)
  let general := items.filter (fun i => i.category == ScriptCategory.General)
  "#!/bin/bash\n"
    ++ ("# Generated for " ++ os_distro.debugFmt ++ " by Enterprise Linux TUI\n\n")
    ++ "# Exit immediately if a command exits with a non-zero status.\nset -e\n\n"
    ++ "# Helper for logging steps\nprint_step() \x7b\n    echo\n    echo \"✅ ==> $1\"\n\x7d\n\n"
    ++ (if repos.isEmpty && general.isEmpty then "# No options selected.\n" else "")
    ++ (if !repos.isEmpty then "# --- 1. ENABLING REPOSITORIES ---\n" ++ renderItems repos
        else "")
    ++ (if !general.isEmpty then "\n# --- 2. APPLYING CONFIGURATIONS ---\n" ++ renderItems general
        else "")
    ++ (if reboot then "\nprint_step \"All tasks complete. Rebooting now...\"\nsleep 3\nsudo reboot\n"
        else if !repos.isEmpty || !general.isEmpty then "\nprint_step \"All tasks complete!\"\n"
        else "")

/-- The display name of a node (the `match` both arms of the comparator in
`sort_menu_recursively` use, src/scripts.rs lines 165-172). -/
def nodeName : MenuNode → String
  | MenuNode.Menu name _ => name
  | MenuNode.Item name _ _ _ => name

/-- The comparator of `sort_menu_recursively` (src/scripts.rs line 173):
ascending by `name.to_lowercase()`. -/
def nodeLe (a b : MenuNode) : Bool :=
  decide ((nodeName a).toLower ≤ (nodeName b).toLower)

mutual

/-- `sort_menu_recursively` from src/scripts.rs (lines 161-181): stable-sorts
every `Menu`'s children by lowercased name, then recurses into them
(`Vec::sort_by` is a stable sort, embedded as `List.mergeSort`). -/
def sort_menu_recursively : MenuNode → MenuNode
  | MenuNode.Item name script_fn selected category =>
      MenuNode.Item name script_fn selected category
  | MenuNode.Menu name children =>
      MenuNode.Menu name (smr_children (children.mergeSort nodeLe))
termination_by t => sizeOf t
decreasing_by
  rw [(List.mergeSort_perm _ nodeLe).sizeOf_eq_sizeOf]
  simp only [MenuNode.Menu.sizeOf_spec]
  omega

/-- The `for child in children` recursion loop of `sort_menu_recursively`. -/
def smr_children : List MenuNode → List MenuNode
  | [] => []
  | c :: rest => sort_menu_recursively c :: smr_children rest
termination_by l => sizeOf l
decreasing_by
  all_goals simp only [List.cons.sizeOf_spec]
  all_goals omega

end

namespace scripts_virt

def kvm_base : String := "sudo dnf install -y qemu-kvm libvirt-daemon-config-network libvirt-daemon-kvm"
def kvm_full : String := "sudo dnf install -y @virtualization virt-top libguestfs-tools"
def kvm_virt_manager : String := "sudo dnf install -y virt-manager"
def kvm_tigervnc : String := "sudo dnf install -y tigervnc-server"
def kvm_remmina : String := "sudo dnf install -y remmina"
def kvm_libvirt_net_create : String := "echo \x27Placeholder for libvirt network creation script\x27"
def cockpit_base : String := "sudo dnf install -y cockpit\nsudo systemctl enable --now cockpit.socket"
def cockpit_full : String := "sudo dnf install -y cockpit cockpit-machines cockpit-podman cockpit-storaged\nsudo systemctl enable --now cockpit.socket"
def cockpit_storage : String := "sudo dnf install -y cockpit-storaged"
def cockpit_podman : String := "sudo dnf install -y cockpit-podman"
def cockpit_files : String := "echo \x27cockpit-files is part of the core cockpit package\x27"
def cockpit_image_builder : String := "sudo dnf install -y cockpit-composer"
def cockpit_machines : String := "sudo dnf install -y cockpit-machines"
def install_xen : String := "sudo dnf install -y xen\nsudo systemctl enable xen-qemu-dom0-disk-backend.service"

end scripts_virt

namespace scripts_gnome

def base_install : String := "sudo dnf install -y gdm gnome-shell gnome-terminal"
def full_install : String := "sudo dnf groupinstall -y \x27Workstation\x27"

end scripts_gnome

namespace scripts_gnome_ext

def placeholder : String := "echo \x27GNOME Shell extension installation must be done manually or via a dedicated script.\x27"

end scripts_gnome_ext

namespace scripts_gnome_apps

def konsole : String := "sudo dnf install -y konsole"
def filezilla : String := "sudo dnf install -y filezilla"
def remmina : String := "sudo dnf install -y remmina"
def firefox : String := "sudo dnf install -y firefox"
def chromium : String := "sudo dnf install -y chromium"
def placeholder : String := "echo \x27This app is not in the default repos or requires special installation.\x27"

end scripts_gnome_apps

namespace scripts_sway

def compile_from_source : String := "echo \x27Placeholder for Sway v1.10 compilation script\x27"
def install_wofi : String := "sudo dnf install -y wofi"
def install_swaybg : String := "sudo dnf install -y swaybg"
def install_waybar : String := "sudo dnf install -y waybar"

end scripts_sway

namespace scripts_repos

def add_rt : String := "sudo dnf config-manager --set-enabled rt"
def add_plus : String := "sudo dnf config-manager --set-enabled plus"
def add_nfv : String := "sudo dnf config-manager --set-enabled nfv"
def add_ha : String := "sudo dnf config-manager --set-enabled ha"
def add_extras : String := "sudo dnf config-manager --set-enabled extras"
def add_devel : String := "sudo dnf config-manager --set-enabled devel"
def add_crb : String := "sudo dnf config-manager --set-enabled crb"
def add_baseos : String := "sudo dnf config-manager --set-enabled baseos"
def add_appstream : String := "sudo dnf config-manager --set-enabled appstream"
def add_epel : String := "sudo dnf config-manager --set-enabled crb\nsudo dnf install -y \x27https://dl.fedoraproject.org/pub/epel/epel-release-latest-9.noarch.rpm\x27"
def add_flathub : String := "sudo dnf install -y flatpak\nsudo flatpak remote-add --if-not-exists flathub https://dl.flathub.org/repo/flathub.flatpakrepo"

end scripts_repos

namespace scripts_net

def install_vpn_ovpn : String := "sudo dnf install -y NetworkManager-openvpn-gnome"
def install_vpn_l2tp : String := "sudo dnf install -y NetworkManager-l2tp-gnome"
def install_vpn_sswan : String := "sudo dnf install -y NetworkManager-strongswan-gnome"
def install_vpn_lswan : String := "sudo dnf install -y NetworkManager-libreswan-gnome"
def install_vpn_pptp : String := "sudo dnf install -y NetworkManager-pptp-gnome"
def install_vpn_oconn : String := "sudo dnf install -y NetworkManager-openconnect-gnome"

end scripts_net

/-- `ScriptSet` from src/scripts.rs: all scripts for a specific OS (each
`fn() -> &'static str` field embedded as the returned string). -/
structure ScriptSet where
  kvm_base : String
  kvm_full : String
  kvm_virt_manager : String
  kvm_tigervnc : String
  kvm_remmina : String
  kvm_libvirt_net_create : String
  cockpit_base : String
  cockpit_full : String
  cockpit_storage : String
  cockpit_podman : String
  cockpit_files : String
  cockpit_image_builder : String
  cockpit_machines : String
  install_xen : String
  gnome_base : String
  gnome_full : String
  gnome_ext_forge : String
  gnome_ext_tile : String
  gnome_ext_paperwm : String
  gnome_ext_hspacing : String
  gnome_ext_vitals : String
  gnome_ext_just_perfection : String
  gnome_ext_search_light : String
  app_ptyxis : String
  app_konsole : String
  app_alacritty : String
  app_ghostty : String
  app_filezilla : String
  app_remmina : String
  app_firefox : String
  app_chromium : String
  sway_compile_1_10 : String
  sway_wofi : String
  sway_swaybg : String
  sway_waybar : String
  repo_rt : String
  repo_plus : String
  repo_nfv : String
  repo_ha : String
  repo_extras : String
  repo_devel : String
  repo_crb : String
  repo_baseos : String
  repo_appstream : String
  repo_epel : String
  repo_flathub : String
  net_vpn_ovpn : String
  net_vpn_l2tp : String
  net_vpn_sswan : String
  net_vpn_lswan : String
  net_vpn_pptp : String
  net_vpn_oconn : String

/-- `get_script_set` from src/scripts.rs (lines 94-158): the OS argument is
bound as `_os` and never read. -/
def get_script_set (_os : OsDistribution) : ScriptSet where
  kvm_base := scripts_virt.kvm_base
  kvm_full := scripts_virt.kvm_full
  kvm_virt_manager := scripts_virt.kvm_virt_manager
  kvm_tigervnc := scripts_virt.kvm_tigervnc
  kvm_remmina := scripts_virt.kvm_remmina
  kvm_libvirt_net_create := scripts_virt.kvm_libvirt_net_create
  cockpit_base := scripts_virt.cockpit_base
  cockpit_full := scripts_virt.cockpit_full
  cockpit_storage := scripts_virt.cockpit_storage
  cockpit_podman := scripts_virt.cockpit_podman
  cockpit_files := scripts_virt.cockpit_files
  cockpit_image_builder := scripts_virt.cockpit_image_builder
  cockpit_machines := scripts_virt.cockpit_machines
  install_xen := scripts_virt.install_xen
  gnome_base := scripts_gnome.base_install
  gnome_full := scripts_gnome.full_install
  gnome_ext_forge := scripts_gnome_ext.placeholder
  gnome_ext_tile := scripts_gnome_ext.placeholder
  gnome_ext_paperwm := scripts_gnome_ext.placeholder
  gnome_ext_hspacing := scripts_gnome_ext.placeholder
  gnome_ext_vitals := scripts_gnome_ext.placeholder
  gnome_ext_just_perfection := scripts_gnome_ext.placeholder
  gnome_ext_search_light := scripts_gnome_ext.placeholder
  app_ptyxis := scripts_gnome_apps.placeholder
  app_konsole := scripts_gnome_apps.konsole
  app_alacritty := scripts_gnome_apps.placeholder
  app_ghostty := scripts_gnome_apps.placeholder
  app_filezilla := scripts_gnome_apps.filezilla
  app_remmina := scripts_gnome_apps.remmina
  app_firefox := scripts_gnome_apps.firefox
  app_chromium := scripts_gnome_apps.chromium
  sway_compile_1_10 := scripts_sway.compile_from_source
  sway_wofi := scripts_sway.install_wofi
  sway_swaybg := scripts_sway.install_swaybg
  sway_waybar := scripts_sway.install_waybar
  repo_rt := scripts_repos.add_rt
  repo_plus := scripts_repos.add_plus
  repo_nfv := scripts_repos.add_nfv
  repo_ha := scripts_repos.add_ha
  repo_extras := scripts_repos.add_extras
  repo_devel := scripts_repos.add_devel
  repo_crb := scripts_repos.add_crb
  repo_baseos := scripts_repos.add_baseos
  repo_appstream := scripts_repos.add_appstream
  repo_epel := scripts_repos.add_epel
  repo_flathub := scripts_repos.add_flathub
  net_vpn_ovpn := scripts_net.install_vpn_ovpn
  net_vpn_l2tp := scripts_net.install_vpn_l2tp
  net_vpn_sswan := scripts_net.install_vpn_sswan
  net_vpn_lswan := scripts_net.install_vpn_lswan
  net_vpn_pptp := scripts_net.install_vpn_pptp
  net_vpn_oconn := scripts_net.install_vpn_oconn

/-- Shorthand for an `item!` macro expansion from src/scripts.rs: a leaf
node with `selected: false`. -/
def mkItem (name : String) (script_fn : String) (category : ScriptCategory) : MenuNode :=
  MenuNode.Item name script_fn false category

/-- The `main_menu` literal built inside `build_menu_tree`
(src/scripts.rs lines 187-300), before the sort pass. -/
def main_menu_literal (os : OsDistribution) : MenuNode :=
  let scripts := get_script_set os
  MenuNode.Menu "Main Menu" [
    MenuNode.Menu "Virtualization" [
      MenuNode.Menu "Virtualization Engines" [
        MenuNode.Menu "KVM Core & Tools" [
          mkItem "Base Installation" scripts.kvm_base ScriptCategory.General,
          mkItem "Full Installation" scripts.kvm_full ScriptCategory.General,
          MenuNode.Menu "Modules" [
            mkItem "virt-manager" scripts.kvm_virt_manager ScriptCategory.General,
            mkItem "tigervnc" scripts.kvm_tigervnc ScriptCategory.General,
            mkItem "remmina" scripts.kvm_remmina ScriptCategory.General],
          MenuNode.Menu "Setup Scripts" [
            mkItem "libvirt network create" scripts.kvm_libvirt_net_create ScriptCategory.General]],
        MenuNode.Menu "XEN Core & Tools" [
          mkItem "Base Installation" scripts.install_xen ScriptCategory.General],
        MenuNode.Menu "XEN Management" []],
      MenuNode.Menu "KVM Management" [
        MenuNode.Menu "Cockpit" [
          mkItem "Base Installation" scripts.cockpit_base ScriptCategory.General,
          mkItem "Full Installation" scripts.cockpit_full ScriptCategory.General,
          MenuNode.Menu "Modules" [
            mkItem "storage" scripts.cockpit_storage ScriptCategory.General,
            mkItem "podman" scripts.cockpit_podman ScriptCategory.General,
            mkItem "files" scripts.cockpit_files ScriptCategory.General,
            mkItem "image builder" scripts.cockpit_image_builder ScriptCategory.General,
            mkItem "machines" scripts.cockpit_machines ScriptCategory.General]]]],
    MenuNode.Menu "Graphical Environments" [
      MenuNode.Menu "Gnome DE - STABLE" [
        MenuNode.Menu "Environment Installation" [
          mkItem "Base Installation" scripts.gnome_base ScriptCategory.General,
          mkItem "Full Installation" scripts.gnome_full ScriptCategory.General],
        MenuNode.Menu "Customization / Extensions" [
          MenuNode.Menu "Tiling WM" [
            mkItem "Forge" scripts.gnome_ext_forge ScriptCategory.General,
            mkItem "Tile" scripts.gnome_ext_tile ScriptCategory.General,
            mkItem "PaperWM" scripts.gnome_ext_paperwm ScriptCategory.General],
          MenuNode.Menu "Top Bar" [
            mkItem "status area horizontal spacing" scripts.gnome_ext_hspacing ScriptCategory.General,
            mkItem "vitals" scripts.gnome_ext_vitals ScriptCategory.General],
          MenuNode.Menu "Tweaks" [
            mkItem "Just Perfection" scripts.gnome_ext_just_perfection ScriptCategory.General],
          MenuNode.Menu "Search / Launchers" [
            mkItem "Search Light" scripts.gnome_ext_search_light ScriptCategory.General]],
        MenuNode.Menu "Applications / Packages" [
          MenuNode.Menu "Terminals" [
            mkItem "Ptyxis" scripts.app_ptyxis ScriptCategory.General,
            mkItem "Konsole" scripts.app_konsole ScriptCategory.General,
            mkItem "Allacritty" scripts.app_alacritty ScriptCategory.General,
            mkItem "Ghostty" scripts.app_ghostty ScriptCategory.General],
          MenuNode.Menu "Remote Connection" [
            mkItem "Filezilla" scripts.app_filezilla ScriptCategory.General,
            mkItem "Remmina" scripts.app_remmina ScriptCategory.General],
          MenuNode.Menu "Browsers" [
            mkItem "Firefox" scripts.app_firefox ScriptCategory.General,
            mkItem "Chromium" scripts.app_chromium ScriptCategory.General]]],
      MenuNode.Menu "Sway WM" [
        MenuNode.Menu "Environment Installation" [
          MenuNode.Menu "Compile from Source" [
            mkItem "v1.10" scripts.sway_compile_1_10 ScriptCategory.General]],
        MenuNode.Menu "Customization / Extentsions" [
          mkItem "Wofi" scripts.sway_wofi ScriptCategory.General,
          mkItem "Swaybg" scripts.sway_swaybg ScriptCategory.General,
          mkItem "Waybar" scripts.sway_waybar ScriptCategory.General]]],
    MenuNode.Menu "Networking" [
      MenuNode.Menu "NetworkManager" [
        mkItem "OpenVPN" scripts.net_vpn_ovpn ScriptCategory.General,
        mkItem "OpenConnect" scripts.net_vpn_oconn ScriptCategory.General,
        mkItem "L2TP" scripts.net_vpn_l2tp ScriptCategory.General,
        mkItem "LibreSwan" scripts.net_vpn_lswan ScriptCategory.General,
        mkItem "StrongSwan" scripts.net_vpn_sswan ScriptCategory.General,
        mkItem "PPTP" scripts.net_vpn_pptp ScriptCategory.General]],
    MenuNode.Menu "Repositories" [
      MenuNode.Menu "Add Repositories (ROCKY LINUX SPECIFIC)" [
        mkItem "realtime" scripts.repo_rt ScriptCategory.Repository,
        mkItem "plus" scripts.repo_plus ScriptCategory.Repository,
        mkItem "nfv" scripts.repo_nfv ScriptCategory.Repository,
        mkItem "High availibility" scripts.repo_ha ScriptCategory.Repository,
        mkItem "extras" scripts.repo_extras ScriptCategory.Repository,
        mkItem "devel (WARNING)" scripts.repo_devel ScriptCategory.Repository,
        mkItem "CRB (code ready builder)" scripts.repo_crb ScriptCategory.Repository,
        mkItem "base OS" scripts.repo_baseos ScriptCategory.Repository,
        mkItem "appstream" scripts.repo_appstream ScriptCategory.Repository,
        mkItem "epel" scripts.repo_epel ScriptCategory.Repository,
        mkItem "flathub" scripts.repo_flathub ScriptCategory.Repository]]]

/-- `build_menu_tree` from src/scripts.rs (lines 184-304): build the
`main_menu` literal from the script set, sort it recursively, return it. -/
def build_menu_tree (os : OsDistribution) : MenuNode :=
  sort_menu_recursively (main_menu_literal os)

/-- An address of a node inside the menu tree: the sequence of child
indices from the root. Addresses stand for the `Rc<RefCell<MenuNode>>`
references the source stores in `nav_path` and in visible-node lists. -/
abbrev Addr := List Nat

/-- Resolve an address against a tree (what dereferencing the
corresponding `Rc` yields). -/
def getNode : MenuNode → Addr → Option MenuNode
  | t, [] => some t
  | MenuNode.Menu _ children, i :: rest =>
      match children[i]? with
      | some c => getNode c rest
      | none => none
  | MenuNode.Item _ _ _ _, _ :: _ => none

/-- Apply `f` to the node at address `a` (mutation through the
corresponding `Rc<RefCell<_>>` borrow). Out-of-tree addresses leave the
tree unchanged. -/
def updateNode (f : MenuNode → MenuNode) : MenuNode → Addr → MenuNode
  | t, [] => f t
  | MenuNode.Menu name children, i :: rest =>
      (match children[i]? with
       | some c => MenuNode.Menu name (children.set i (updateNode f c rest))
       | none => MenuNode.Menu name children)
  | MenuNode.Item name script_fn selected category, _ :: _ =>
      MenuNode.Item name script_fn selected category

/-- The `*selected = !*selected` toggle of the `Enter` handler in
`run_app` (src/main.rs line 282), as a node transformer. -/
def toggleItem : MenuNode → MenuNode
  | MenuNode.Item name script_fn selected category =>
      MenuNode.Item name script_fn (!selected) category
  | MenuNode.Menu name children => MenuNode.Menu name children

mutual

/-- `build_tree_display` from src/main.rs (lines 410-440): the recursive
helper that renders a node and its whole subtree for the root overview.
The returned pairs carry the address of each rendered node (the source
stores `node.clone()`, an `Rc` identifying the same node). -/
def build_tree_display (node : MenuNode) (addr : Addr) (pre : String) (is_last : Bool) :
    List (String × Addr) :=
  match node with
  | MenuNode.Menu name children =>
      ((pre ++ (if is_last then "└─" else "├─")) ++ " " ++ name ++ " >", addr) ::
        btd_children children addr 0
          (if is_last then pre ++ "   " else pre ++ "│  ")
  | MenuNode.Item name _ selected _ =>
      [((pre ++ (if is_last then "└─" else "├─")) ++ " "
          ++ (if selected then "[x]" else "[ ]") ++ " " ++ name, addr)]

/-- The `for (i, child) in children.iter().enumerate()` loop around
`build_tree_display`: `i` is the index of the next child under `addr`,
and `is_last` is `i == num_children - 1`. -/
def btd_children (children : List MenuNode) (addr : Addr) (i : Nat) (pre : String) :
    List (String × Addr) :=
  match children with
  | [] => []
  | [c] => build_tree_display c (addr ++ [i]) pre true
  | c :: c2 :: rest =>
      build_tree_display c (addr ++ [i]) pre false ++ btd_children (c2 :: rest) addr (i + 1) pre

end

/-- The submenu branch of `get_visible_nodes` (src/main.rs lines 449-465):
a simple one-level list of the current children with tree connectors. -/
def simple_children_display (children : List MenuNode) (addr : Addr) (i : Nat) :
    List (String × Addr) :=
  match children with
  | [] => []
  | c :: rest =>
      let is_last := rest.isEmpty
      let connector := if is_last then "└─" else "├─"
      let line :=
        match c with
        | MenuNode.Menu name _ => connector ++ " " ++ name ++ " >"
        | MenuNode.Item name _ selected _ =>
            connector ++ " " ++ (if selected then "[x]" else "[ ]") ++ " " ++ name
      (line, addr ++ [i]) :: simple_children_display rest addr (i + 1)

/-- `get_visible_nodes` from src/main.rs (lines 405-468), over a path of
addresses into `tree`: at the root (path length 1) the whole tree is
rendered recursively; deeper, only the direct children of the current
menu are listed. A path whose last element is not a `Menu` yields the
empty list (the source's `if let` falls through). -/
def get_visible_nodes (tree : MenuNode) (nav_path : List Addr) : List (String × Addr) :=
  match nav_path.getLast? with
  | none => []
  | some current =>
      match getNode tree current with
      | some (MenuNode.Menu _ children) =>
          if nav_path.length = 1 then btd_children children current 0 ""
          else simple_children_display children current 0
      | _ => []

/-- The navigation-relevant part of `App` (src/main.rs): the owned menu
tree, the `nav_path` stack (as addresses) and `selected_index`. -/
structure AppNav where
  tree : MenuNode
  nav_path : List Addr
  selected_index : Nat
deriving Repr

/-- The key events handled by the `AppState::Running` arm of `run_app`
that touch navigation state. -/
inductive NavKey where
  | down
  | up
  | enter
  | back

/-- One iteration of the `AppState::Running` key-event handling in
`run_app` (src/main.rs lines 248-294): first the defensive clamp of
`selected_index` against the visible list, then the key dispatch.
`enter` covers `Right | Enter`, `back` covers `Left | Backspace`. -/
def navStep (s : AppNav) (k : NavKey) : AppNav :=
  let visible := get_visible_nodes s.tree s.nav_path
  let idx := if visible.length > 0 then min s.selected_index (visible.length - 1) else 0
  match k with
  | NavKey.down =>
      if visible.isEmpty then { s with selected_index := idx }
      else { s with selected_index := (idx + 1) % visible.length }
  | NavKey.up =>
      if visible.isEmpty then { s with selected_index := idx }
      else { s with selected_index := (idx + visible.length - 1) % visible.length }
  | NavKey.enter =>
      match visible[idx]? with
      | some (_, a) =>
          match getNode s.tree a with
          | some (MenuNode.Menu _ _) =>
              { s with nav_path := s.nav_path ++ [a], selected_index := 0 }
          | some (MenuNode.Item _ _ _ _) =>
              { s with tree := updateNode toggleItem s.tree a, selected_index := idx }
          | none => { s with selected_index := idx }
      | none => { s with selected_index := idx }
  | NavKey.back =>
      if s.nav_path.length > 1 then
        { s with nav_path := s.nav_path.dropLast, selected_index := 0 }
      else { s with selected_index := idx }

/-- The states of the navigation loop reachable from the initial state of
`App::new`: `nav_path = vec![menu_tree.clone()]` (address `[]`),
`selected_index = 0`, by any sequence of handled key events. -/
inductive NavReachable (t0 : MenuNode) : AppNav → Prop where
  | init : NavReachable t0 ⟨t0, [[]], 0⟩
  | step (s : AppNav) (k : NavKey) : NavReachable t0 s → NavReachable t0 (navStep s k)

mutual

/-- All nodes of a tree in pre-order (each node before its children,
children in list order). Specification-side definition used to state in
which order `get_selected_items_info` collects items. -/
def preorderNodes : MenuNode → List MenuNode
  | MenuNode.Item name script_fn selected category =>
      [MenuNode.Item name script_fn selected category]
  | MenuNode.Menu name children => MenuNode.Menu name children :: preorderForest children

/-- Pre-order traversal of a forest. -/
def preorderForest : List MenuNode → List MenuNode
  | [] => []
  | c :: rest => preorderNodes c ++ preorderForest rest

end

/-- The `SelectedItem` snapshot a node contributes when visited by
`get_selected_items_info`: selected items only. -/
def selInfo : MenuNode → Option SelectedItem
  | MenuNode.Item name script_fn selected category =>
      if selected then some ⟨name, script_fn, category⟩ else none
  | MenuNode.Menu _ _ => none

/-- The `repos` partition of `generate_commands` (src/main.rs line 148). -/
def selectedRepos (t : MenuNode) : List SelectedItem :=
  (get_selected_items_info t []).filter (fun i => i.category == ScriptCategory.Repository)

/-- The `general` partition of `generate_commands` (src/main.rs line 149). -/
def selectedGeneral (t : MenuNode) : List SelectedItem :=
  (get_selected_items_info t []).filter (fun i => i.category == ScriptCategory.General)

/-- The text `generate_commands` emits for one selected item: its
`print_step` banner, the raw script text, one newline. -/
def itemBlock (i : SelectedItem) : String :=
  "print_step \"" ++ i.name ++ "\"\n" ++ i.script_fn ++ "\n"

/-- The fixed header of every generated script: shebang, OS comment,
`set -e`, `print_step` helper. -/
def scriptHeader (os : OsDistribution) : String :=
  "#!/bin/bash\n"
    ++ ("# Generated for " ++ os.debugFmt ++ " by Enterprise Linux TUI\n\n")
    ++ "# Exit immediately if a command exits with a non-zero status.\nset -e\n\n"
    ++ "# Helper for logging steps\nprint_step() \x7b\n    echo\n    echo \"✅ ==> $1\"\n\x7d\n\n"

/-- The (possibly empty) no-selection comment of the generated script. -/
def noSelText (t : MenuNode) : String :=
  if (selectedRepos t).isEmpty && (selectedGeneral t).isEmpty then "# No options selected.\n"
  else ""

/-- The (possibly empty) repository section of the generated script. -/
def repoSectionText (t : MenuNode) : String :=
  if !(selectedRepos t).isEmpty then
    "# --- 1. ENABLING REPOSITORIES ---\n" ++ renderItems (selectedRepos t)
  else ""

/-- The (possibly empty) general section of the generated script. -/
def generalSectionText (t : MenuNode) : String :=
  if !(selectedGeneral t).isEmpty then
    "\n# --- 2. APPLYING CONFIGURATIONS ---\n" ++ renderItems (selectedGeneral t)
  else ""

/-- The footer of the generated script (reboot block or completion banner). -/
def footerText (t : MenuNode) (reboot : Bool) : String :=
  if reboot then "\nprint_step \"All tasks complete. Rebooting now...\"\nsleep 3\nsudo reboot\n"
  else if !(selectedRepos t).isEmpty || !(selectedGeneral t).isEmpty then
    "\nprint_step \"All tasks complete!\"\n"
  else ""

/-- Everything `generate_commands` emits after the shebang and the OS
comment line; by construction independent of the OS argument. -/
def scriptTail (t : MenuNode) (reboot : Bool) : String :=
  "# Exit immediately if a command exits with a non-zero status.\nset -e\n\n"
    ++ "# Helper for logging steps\nprint_step() \x7b\n    echo\n    echo \"✅ ==> $1\"\n\x7d\n\n"
    ++ noSelText t ++ repoSectionText t ++ generalSectionText t ++ footerText t reboot

/-- `App::generate_commands` as the `&self` method: it reads only the
`menu_tree` field of the navigation state (and the OS / reboot inputs). -/
def app_generate_commands (os : OsDistribution) (s : AppNav) (reboot : Bool) : String :=
  generate_commands os s.tree reboot

/-- `nodeLe a b` holds for every element `b` of the list. -/
def leAll (a : MenuNode) : List MenuNode → Bool
  | [] => true
  | b :: rest => nodeLe a b && leAll a rest

mutual

/-- Every `Menu`'s children list, at every depth, is pairwise ordered by
`nodeLe` (ascending by lowercased name). -/
def isSortedMenu : MenuNode → Bool
  | MenuNode.Item _ _ _ _ => true
  | MenuNode.Menu _ children => isSortedForest children

/-- Forest version of `isSortedMenu`. -/
def isSortedForest : List MenuNode → Bool
  | [] => true
  | c :: rest => leAll c rest && isSortedMenu c && isSortedForest rest

end

/-- The pure shape of a menu tree: what remains when names, scripts,
selection flags and categories are erased. Node addresses only depend on
this shape. -/
inductive TreeShape where
  | leaf
  | node (children : List TreeShape)
deriving Repr

mutual

/-- Erase a node to its shape. -/
def shapeOf : MenuNode → TreeShape
  | MenuNode.Item _ _ _ _ => TreeShape.leaf
  | MenuNode.Menu _ children => TreeShape.node (shapeForest children)

/-- Erase a forest to its shapes. -/
def shapeForest : List MenuNode → List TreeShape
  | [] => []
  | c :: rest => shapeOf c :: shapeForest rest

end

mutual

/-- The addresses produced by `build_tree_display`, computed from the
shape alone. -/
def shapeAddrs : TreeShape → Addr → List Addr
  | TreeShape.leaf, a => [a]
  | TreeShape.node cs, a => a :: shapeForestAddrs cs a 0

/-- The addresses produced by `btd_children`, computed from shapes. -/
def shapeForestAddrs : List TreeShape → Addr → Nat → List Addr
  | [], _, _ => []
  | [c], a, i => shapeAddrs c (a ++ [i])
  | c :: c2 :: rest, a, i =>
      shapeAddrs c (a ++ [i]) ++ shapeForestAddrs (c2 :: rest) a (i + 1)

end

/-- The addresses produced by `simple_children_display` for `n` children
starting at child index `i`. -/
def childAddrs (n : Nat) (a : Addr) (i : Nat) : List Addr :=
  match n with
  | 0 => []
  | m + 1 => (a ++ [i]) :: childAddrs m a (i + 1)

/-- `selected_index` is already within range of the current visible list
(the defensive clamp at the top of the `Running` handler is a no-op). -/
def ClampedSel (s : AppNav) : Prop :=
  ((get_visible_nodes s.tree s.nav_path).length = 0 ∧ s.selected_index = 0)
    ∨ s.selected_index < (get_visible_nodes s.tree s.nav_path).length

/-- `b` is the address of a direct child of the node at `a`. -/
def isChildAddr (a b : Addr) : Prop :=
  ∃ i, b = a ++ [i]

/-- `b` is the address of a strict descendant of the node at `a`. -/
def isDescAddr (a b : Addr) : Prop :=
  a <+: b ∧ a.length < b.length

/-- The navigation-path invariant the code actually maintains: the path
is non-empty, starts at the root address, each element is a strict
descendant of its predecessor, every element from the second step on is a
direct child of its predecessor, and every element resolves to a `Menu`
node of the current tree. -/
def NavInvariant (s : AppNav) : Prop :=
  s.nav_path ≠ []
    ∧ s.nav_path.head? = some ([] : Addr)
    ∧ List.Chain' isDescAddr s.nav_path
    ∧ List.Chain' isChildAddr s.nav_path.tail
    ∧ ∀ a ∈ s.nav_path, ∃ name children, getNode s.tree a = some (MenuNode.Menu name children)

/-- The navigation-path property claimed by the specification: every
element is a direct child of its predecessor (a root-to-current
parent-child chain). -/
def PathIsParentChildChain (s : AppNav) : Prop :=
  s.nav_path ≠ []
    ∧ s.nav_path.head? = some ([] : Addr)
    ∧ List.Chain' isChildAddr s.nav_path

/-- A small concrete tree with two selected items (`epel`, Repository;
`Firefox`, General), one unselected item and a sub-menu; used to witness
the generator theorems on a concrete input. -/
def demoTree : MenuNode :=
  MenuNode.Menu "Main Menu" [
    MenuNode.Item "epel" "epel-cmd" true ScriptCategory.Repository,
    MenuNode.Menu "Apps" [
      MenuNode.Item "Firefox" "ff-cmd" true ScriptCategory.General,
      MenuNode.Item "Wofi" "wofi-cmd" false ScriptCategory.General]]

/-- Concrete tree with two selected General items in the same section:
their rendered blocks are adjacent, with no blank line in between. -/
def twoGeneralTree : MenuNode :=
  MenuNode.Menu "Main Menu" [
    MenuNode.Item "A" "cmdA" true ScriptCategory.General,
    MenuNode.Item "B" "cmdB" true ScriptCategory.General]

/-- Concrete tree with nested sub-menus: from the root overview the user
can enter a depth-two container directly. -/
def nestedTree : MenuNode :=
  MenuNode.Menu "Main Menu" [MenuNode.Menu "A" [MenuNode.Menu "B" []]]

/-- The state reached on `nestedTree` by pressing Down then Enter at the
root overview: the depth-two container `B` is pushed onto the path. -/
def jumpedState : AppNav :=
  navStep (navStep ⟨nestedTree, [[]], 0⟩ NavKey.down) NavKey.enter

/-! ### Basic lemmas about the selected-item collection pass -/

theorem gsii_children_eq : ∀ (l : List MenuNode) (acc : List SelectedItem),
    gsii_children l acc = acc ++ (preorderForest l).filterMap selInfo := by
  refine gsii_children.induct
    (fun t acc => get_selected_items_info t acc = acc ++ (preorderNodes t).filterMap selInfo)
    (fun l acc => gsii_children l acc = acc ++ (preorderForest l).filterMap selInfo)
    ?_ ?_ ?_ ?_ ?_
  · intro name script_fn category items
    simp [get_selected_items_info, preorderNodes, selInfo]
  · intro name script_fn selected category items h
    simp [get_selected_items_info, preorderNodes, selInfo, h]
  · intro name children items h
    simp [get_selected_items_info, preorderNodes, selInfo, h]
  · intro items
    simp [gsii_children, preorderForest]
  · intro c rest items h1 h2
    rw [gsii_children, h2, h1]
    simp [preorderForest, List.filterMap_append, List.append_assoc]

theorem get_selected_items_info_eq (t : MenuNode) (acc : List SelectedItem) :
    get_selected_items_info t acc = acc ++ (preorderNodes t).filterMap selInfo := by
  have h := gsii_children_eq [t] acc
  simpa [gsii_children, preorderForest, get_selected_items_info] using h

theorem gsii_frame (t : MenuNode) (acc : List SelectedItem) :
    get_selected_items_info t acc = acc ++ get_selected_items_info t [] := by
  rw [get_selected_items_info_eq, get_selected_items_info_eq]
  simp

/-! ### Structure lemmas about the generated script text -/

theorem renderItems_cons (i : SelectedItem) (l : List SelectedItem) :
    renderItems (i :: l) = itemBlock i ++ renderItems l := by
  simp [renderItems, itemBlock, String.append_assoc]

theorem renderItems_append (l₁ l₂ : List SelectedItem) :
    renderItems (l₁ ++ l₂) = renderItems l₁ ++ renderItems l₂ := by
  induction l₁ with
  | nil => simp [renderItems]
  | cons i l ih => simp [renderItems, ih, String.append_assoc]

theorem generate_commands_eq (os : OsDistribution) (t : MenuNode) (r : Bool) :
    generate_commands os t r =
      scriptHeader os
        ++ (noSelText t ++ (repoSectionText t ++ (generalSectionText t ++ footerText t r))) := by
  simp only [generate_commands, scriptHeader, noSelText, repoSectionText, generalSectionText,
    footerText, selectedRepos, selectedGeneral, String.append_assoc]

theorem generate_commands_header_split (os : OsDistribution) (t : MenuNode) (r : Bool) :
    generate_commands os t r =
      "#!/bin/bash\n" ++ (("# Generated for " ++ os.debugFmt ++ " by Enterprise Linux TUI\n\n")
        ++ scriptTail t r) := by
  simp only [generate_commands, scriptTail, noSelText, repoSectionText, generalSectionText,
    footerText, selectedRepos, selectedGeneral, String.append_assoc]

theorem repoSectionText_of_eq (t : MenuNode) (l₁ : List SelectedItem) (a : SelectedItem)
    (l₂ : List SelectedItem) (h : selectedRepos t = l₁ ++ a :: l₂) :
    repoSectionText t =
      "# --- 1. ENABLING REPOSITORIES ---\n"
        ++ (renderItems l₁ ++ (itemBlock a ++ renderItems l₂)) := by
  rw [repoSectionText, h]
  simp [renderItems_append, renderItems_cons, String.append_assoc]

theorem generalSectionText_of_eq (t : MenuNode) (l₁ : List SelectedItem) (a : SelectedItem)
    (l₂ : List SelectedItem) (h : selectedGeneral t = l₁ ++ a :: l₂) :
    generalSectionText t =
      "\n# --- 2. APPLYING CONFIGURATIONS ---\n"
        ++ (renderItems l₁ ++ (itemBlock a ++ renderItems l₂)) := by
  rw [generalSectionText, h]
  simp [renderItems_append, renderItems_cons, String.append_assoc]

/-- C1: for every selection state and reboot flag, `generate_commands`
collects selected items in pre-order, and emits every Repository item's
banner-plus-command block before every General item's block, preserving
the pre-order within each category. -/
theorem repo_banners_precede_general_banners
    (os : OsDistribution) (t : MenuNode) (r : Bool) :
    (get_selected_items_info t [] = (preorderNodes t).filterMap selInfo)
    ∧ (∀ a ∈ selectedRepos t, ∀ b ∈ selectedGeneral t,
        ∃ u v w, generate_commands os t r = u ++ (itemBlock a ++ (v ++ (itemBlock b ++ w))))
    ∧ (∀ l₁ a l₂ b l₃, selectedRepos t = l₁ ++ a :: (l₂ ++ b :: l₃) →
        ∃ u v w, generate_commands os t r = u ++ (itemBlock a ++ (v ++ (itemBlock b ++ w))))
    ∧ (∀ l₁ a l₂ b l₃, selectedGeneral t = l₁ ++ a :: (l₂ ++ b :: l₃) →
        ∃ u v w, generate_commands os t r = u ++ (itemBlock a ++ (v ++ (itemBlock b ++ w)))) := by
  refine ⟨by simpa using get_selected_items_info_eq t [], ?_, ?_, ?_⟩
  · intro a ha b hb
    obtain ⟨l₁, l₂, h₁⟩ := List.append_of_mem ha
    obtain ⟨m₁, m₂, h₂⟩ := List.append_of_mem hb
    refine ⟨scriptHeader os ++ (noSelText t
        ++ ("# --- 1. ENABLING REPOSITORIES ---\n" ++ renderItems l₁)),
      renderItems l₂ ++ ("\n# --- 2. APPLYING CONFIGURATIONS ---\n" ++ renderItems m₁),
      renderItems m₂ ++ footerText t r, ?_⟩
    rw [generate_commands_eq, repoSectionText_of_eq t l₁ a l₂ h₁,
      generalSectionText_of_eq t m₁ b m₂ h₂]
    simp only [String.append_assoc]
  · intro l₁ a l₂ b l₃ h₁
    refine ⟨scriptHeader os ++ (noSelText t
        ++ ("# --- 1. ENABLING REPOSITORIES ---\n" ++ renderItems l₁)),
      renderItems l₂,
      renderItems l₃ ++ (generalSectionText t ++ footerText t r), ?_⟩
    rw [generate_commands_eq, repoSectionText_of_eq t l₁ a (l₂ ++ b :: l₃) h₁,
      renderItems_append, renderItems_cons]
    simp only [String.append_assoc]
  · intro l₁ a l₂ b l₃ h₁
    refine ⟨scriptHeader os ++ (noSelText t ++ (repoSectionText t
        ++ ("\n# --- 2. APPLYING CONFIGURATIONS ---\n" ++ renderItems l₁))),
      renderItems l₂,
      renderItems l₃ ++ footerText t r, ?_⟩
    rw [generate_commands_eq, generalSectionText_of_eq t l₁ a (l₂ ++ b :: l₃) h₁,
      renderItems_append, renderItems_cons]
    simp only [String.append_assoc]

theorem repo_banners_precede_general_banners_witness :
    ∃ u v w, generate_commands OsDistribution.Unknown demoTree false =
      u ++ (itemBlock ⟨"epel", "epel-cmd", ScriptCategory.Repository⟩
        ++ (v ++ (itemBlock ⟨"Firefox", "ff-cmd", ScriptCategory.General⟩ ++ w))) :=
  (repo_banners_precede_general_banners OsDistribution.Unknown demoTree false).2.1
    ⟨"epel", "epel-cmd", ScriptCategory.Repository⟩ (by decide)
    ⟨"Firefox", "ff-cmd", ScriptCategory.General⟩ (by decide)

/-- C2: with exactly two selected items, `A` of category Repository and
`B` of category General, `generate_commands` with `reboot = true` emits
precisely: shebang, OS comment, `set -e`, the `print_step` helper, the
repository section comment with `A`'s banner and action text, the general
section comment with `B`'s banner and action text, the reboot banner,
`sleep 3` and `sudo reboot` — and nothing else (in particular no other
item's banner). -/
theorem two_items_script_roundtrip
    (os : OsDistribution) (t : MenuNode) (A B : SelectedItem)
    (hA : A.category = ScriptCategory.Repository)
    (hB : B.category = ScriptCategory.General)
    (hsel : get_selected_items_info t [] = [A, B] ∨ get_selected_items_info t [] = [B, A]) :
    generate_commands os t true =
      "#!/bin/bash\n"
        ++ (("# Generated for " ++ os.debugFmt ++ " by Enterprise Linux TUI\n\n")
        ++ ("# Exit immediately if a command exits with a non-zero status.\nset -e\n\n"
        ++ ("# Helper for logging steps\nprint_step() \x7b\n    echo\n    echo \"✅ ==> $1\"\n\x7d\n\n"
        ++ ("# --- 1. ENABLING REPOSITORIES ---\n"
        ++ (itemBlock A
        ++ ("\n# --- 2. APPLYING CONFIGURATIONS ---\n"
        ++ (itemBlock B
        ++ "\nprint_step \"All tasks complete. Rebooting now...\"\nsleep 3\nsudo reboot\n"))))))) := by
  have hr : selectedRepos t = [A] := by
    rcases hsel with h | h <;> simp [selectedRepos, h, List.filter, hA, hB] <;> rfl
  have hg : selectedGeneral t = [B] := by
    rcases hsel with h | h <;> simp [selectedGeneral, h, List.filter, hA, hB] <;> rfl
  have hns : noSelText t = "" := by simp [noSelText, hr]
  rw [generate_commands_eq, repoSectionText_of_eq t [] A [] (by simpa using hr),
    generalSectionText_of_eq t [] B [] (by simpa using hg), hns, footerText]
  simp only [renderItems, scriptHeader, if_true, String.append_assoc, String.empty_append,
    String.append_empty]

theorem two_items_script_roundtrip_witness :
    generate_commands OsDistribution.Rocky demoTree true =
      "#!/bin/bash\n"
        ++ (("# Generated for " ++ OsDistribution.Rocky.debugFmt
              ++ " by Enterprise Linux TUI\n\n")
        ++ ("# Exit immediately if a command exits with a non-zero status.\nset -e\n\n"
        ++ ("# Helper for logging steps\nprint_step() \x7b\n    echo\n    echo \"✅ ==> $1\"\n\x7d\n\n"
        ++ ("# --- 1. ENABLING REPOSITORIES ---\n"
        ++ (itemBlock ⟨"epel", "epel-cmd", ScriptCategory.Repository⟩
        ++ ("\n# --- 2. APPLYING CONFIGURATIONS ---\n"
        ++ (itemBlock ⟨"Firefox", "ff-cmd", ScriptCategory.General⟩
        ++ "\nprint_step \"All tasks complete. Rebooting now...\"\nsleep 3\nsudo reboot\n"))))))) :=
  two_items_script_roundtrip OsDistribution.Rocky demoTree
    ⟨"epel", "epel-cmd", ScriptCategory.Repository⟩
    ⟨"Firefox", "ff-cmd", ScriptCategory.General⟩
    rfl rfl (Or.inl (by decide))

/-- C3 as stated is false on the code: between two consecutive selected
items of the same section there is no blank line — each item's raw script
text is followed by a single newline and then immediately the next item's
banner. On `twoGeneralTree` the generated script is the explicit string
below, and the blank-line rendering of item `A` required by the claim
(`print_step "A"`, `cmdA`, empty line) occurs nowhere in it. -/
theorem item_block_blank_line_counterexample :
    generate_commands OsDistribution.Unknown twoGeneralTree false =
      "#!/bin/bash\n# Generated for Unknown by Enterprise Linux TUI\n\n# Exit immediately if a command exits with a non-zero status.\nset -e\n\n# Helper for logging steps\nprint_step() \x7b\n    echo\n    echo \"✅ ==> $1\"\n\x7d\n\n\n# --- 2. APPLYING CONFIGURATIONS ---\nprint_step \"A\"\ncmdA\nprint_step \"B\"\ncmdB\n\nprint_step \"All tasks complete!\"\n"
    ∧ ¬ List.IsInfix ("print_step \"A\"\ncmdA\n\n").data
        (generate_commands OsDistribution.Unknown twoGeneralTree false).data := by
  constructor
  · decide
  · decide

/-- C3 (amended): for every selected item emitted in the Repository or
General section, the emitted text is its `print_step` banner carrying the
display name, followed immediately by the raw action text unmodified,
followed by a terminating newline (no blank line separates it from the
next emitted line). -/
theorem item_block_rendering
    (os : OsDistribution) (t : MenuNode) (r : Bool) (i : SelectedItem)
    (h : i ∈ selectedRepos t ∨ i ∈ selectedGeneral t) :
    ∃ u w, generate_commands os t r = u ++ (itemBlock i ++ w) := by
  rcases h with h | h
  · obtain ⟨l₁, l₂, h₁⟩ := List.append_of_mem h
    refine ⟨scriptHeader os ++ (noSelText t
        ++ ("# --- 1. ENABLING REPOSITORIES ---\n" ++ renderItems l₁)),
      renderItems l₂ ++ (generalSectionText t ++ footerText t r), ?_⟩
    rw [generate_commands_eq, repoSectionText_of_eq t l₁ i l₂ h₁]
    simp only [String.append_assoc]
  · obtain ⟨l₁, l₂, h₁⟩ := List.append_of_mem h
    refine ⟨scriptHeader os ++ (noSelText t ++ (repoSectionText t
        ++ ("\n# --- 2. APPLYING CONFIGURATIONS ---\n" ++ renderItems l₁))),
      renderItems l₂ ++ footerText t r, ?_⟩
    rw [generate_commands_eq, generalSectionText_of_eq t l₁ i l₂ h₁]
    simp only [String.append_assoc]

theorem item_block_rendering_witness :
    ∃ u w, generate_commands OsDistribution.Unknown demoTree false =
      u ++ (itemBlock ⟨"Firefox", "ff-cmd", ScriptCategory.General⟩ ++ w) :=
  item_block_rendering OsDistribution.Unknown demoTree false
    ⟨"Firefox", "ff-cmd", ScriptCategory.General⟩ (Or.inr (by decide))

/-- C9: script generation does not mutate the application state it reads:
the only write in its call graph, `items.push` inside
`get_selected_items_info`, strictly appends to the accumulator (existing
contents and the tree are untouched), and the generated text is a
deterministic function of the tree and the reboot flag alone — it does not
depend on `nav_path` or `selected_index`, so repeated calls on an
unchanged selection state return identical strings. -/
theorem generate_commands_pure :
    (∀ (t : MenuNode) (acc : List SelectedItem),
       get_selected_items_info t acc = acc ++ get_selected_items_info t [])
    ∧ (∀ (os : OsDistribution) (r : Bool) (t : MenuNode) (p₁ p₂ : List Addr) (i₁ i₂ : Nat),
        app_generate_commands os ⟨t, p₁, i₁⟩ r = app_generate_commands os ⟨t, p₂, i₂⟩ r) :=
  ⟨gsii_frame, fun _ _ _ _ _ _ _ => rfl⟩

/-- C10: `get_script_set` ignores its OS argument, so `build_menu_tree`
returns the same tree for every OS variant, and for a fixed tree and
reboot flag the generated scripts of two variants share one common tail:
they differ at most in the header comment line naming the variant. -/
theorem os_variant_ignored :
    (∀ a b : OsDistribution, build_menu_tree a = build_menu_tree b)
    ∧ (∀ (a b : OsDistribution) (t : MenuNode) (r : Bool),
        ∃ tail,
          generate_commands a t r =
            "#!/bin/bash\n" ++ (("# Generated for " ++ a.debugFmt
              ++ " by Enterprise Linux TUI\n\n") ++ tail)
          ∧ generate_commands b t r =
            "#!/bin/bash\n" ++ (("# Generated for " ++ b.debugFmt
              ++ " by Enterprise Linux TUI\n\n") ++ tail)) :=
  ⟨fun _ _ => rfl,
   fun a b t r =>
     ⟨scriptTail t r, generate_commands_header_split a t r,
       generate_commands_header_split b t r⟩⟩

/-! ### Sortedness and stability of the menu-tree sort pass -/

theorem nodeLe_trans (a b c : MenuNode) (h₁ : nodeLe a b) (h₂ : nodeLe b c) : nodeLe a c := by
  simp only [nodeLe, decide_eq_true_eq] at *
  exact le_trans h₁ h₂

theorem nodeLe_total (a b : MenuNode) : nodeLe a b || nodeLe b a := by
  simp only [nodeLe, Bool.or_eq_true, decide_eq_true_eq]
  exact le_total _ _

theorem nodeLe_refl_of_key_eq (a b : MenuNode)
    (h : (nodeName a).toLower = (nodeName b).toLower) : nodeLe a b = true := by
  simp only [nodeLe, decide_eq_true_eq, h]
  exact le_refl _

theorem leAll_iff (a : MenuNode) (l : List MenuNode) :
    leAll a l = true ↔ ∀ b ∈ l, nodeLe a b = true := by
  induction l with
  | nil => simp [leAll]
  | cons b rest ih => simp [leAll, ih]

theorem nodeName_sort_menu_recursively (t : MenuNode) :
    nodeName (sort_menu_recursively t) = nodeName t := by
  cases t <;> rw [sort_menu_recursively] <;> rfl

theorem smr_children_eq_map (l : List MenuNode) :
    smr_children l = l.map sort_menu_recursively := by
  induction l with
  | nil => rw [smr_children]; rfl
  | cons c rest ih => rw [smr_children, ih]; rfl

theorem isSortedForest_of_pairwise (l : List MenuNode)
    (hp : l.Pairwise (fun a b => nodeLe a b = true))
    (hs : ∀ c ∈ l, isSortedMenu c = true) : isSortedForest l = true := by
  induction l with
  | nil => rw [isSortedForest]
  | cons c rest ih =>
      rw [isSortedForest]
      rcases List.pairwise_cons.mp hp with ⟨hhead, htail⟩
      have h1 : leAll c rest = true := (leAll_iff c rest).mpr hhead
      have h2 : isSortedMenu c = true := hs c (by simp)
      have h3 : isSortedForest rest = true := ih htail fun x hx => hs x (by simp [hx])
      simp [h1, h2, h3]

theorem isSortedMenu_sort_menu_recursively : ∀ t : MenuNode,
    isSortedMenu (sort_menu_recursively t) = true := by
  refine sort_menu_recursively.induct
    (fun t => isSortedMenu (sort_menu_recursively t) = true)
    (fun l => ∀ c ∈ l, isSortedMenu (sort_menu_recursively c) = true)
    ?_ ?_ ?_ ?_
  · intro name script_fn selected category
    rw [sort_menu_recursively, isSortedMenu]
  · intro name children ih
    rw [sort_menu_recursively, isSortedMenu, smr_children_eq_map]
    have hpw : (children.mergeSort nodeLe).Pairwise (fun a b => nodeLe a b = true) :=
      List.sorted_mergeSort (fun a b c => nodeLe_trans a b c) nodeLe_total children
    refine isSortedForest_of_pairwise _ ?_ ?_
    · refine List.pairwise_map.mpr (hpw.imp ?_)
      intro a b h
      simpa [nodeLe, nodeName_sort_menu_recursively] using h
    · intro c hc
      obtain ⟨d, hd, rfl⟩ := List.mem_map.mp hc
      exact ih d hd
  · intro c
    simp
  · intro c rest h1 h2 x hx
    rcases List.mem_cons.mp hx with rfl | hx
    · exact h1
    · exact h2 x hx

/-- C4: `build_menu_tree` returns, for every OS variant, a tree in which
every `Menu`'s children are pairwise sorted ascending by lowercased
display name at every depth; and the sort pass is stable — for any
children list and any lowercased-name key, the elements carrying that key
appear in the sorted list exactly in their original insertion order. -/
theorem build_menu_tree_sorted :
    (∀ os : OsDistribution, isSortedMenu (build_menu_tree os) = true)
    ∧ (∀ (l : List MenuNode) (k : String),
        (l.mergeSort nodeLe).filter (fun n => (nodeName n).toLower == k)
          = l.filter (fun n => (nodeName n).toLower == k)) := by
  constructor
  · intro os
    exact isSortedMenu_sort_menu_recursively (main_menu_literal os)
  · intro l k
    have hsub : List.Sublist (l.filter fun n => (nodeName n).toLower == k) l :=
      List.filter_sublist l
    have hkey : ∀ a ∈ (l.filter fun n => (nodeName n).toLower == k),
        (nodeName a).toLower = k := by
      intro a ha
      have := (List.mem_filter.mp ha).2
      exact eq_of_beq this
    have hpw : (l.filter fun n => (nodeName n).toLower == k).Pairwise
        (fun a b => nodeLe a b = true) := by
      refine List.pairwise_of_forall_mem_list ?_
      intro a ha b hb
      exact nodeLe_refl_of_key_eq a b ((hkey a ha).trans (hkey b hb).symm)
    have h1 : List.Sublist (l.filter fun n => (nodeName n).toLower == k)
        (l.mergeSort nodeLe) :=
      List.sublist_mergeSort (fun a b c => nodeLe_trans a b c) nodeLe_total hpw hsub
    have h2 : List.Sublist (l.filter fun n => (nodeName n).toLower == k)
        ((l.mergeSort nodeLe).filter (fun n => (nodeName n).toLower == k)) := by
      have h3 := h1.filter (fun n => (nodeName n).toLower == k)
      rw [List.filter_filter] at h3
      simpa [Bool.and_self] using h3
    have hperm : List.Perm ((l.mergeSort nodeLe).filter (fun n => (nodeName n).toLower == k))
        (l.filter (fun n => (nodeName n).toLower == k)) :=
      (List.mergeSort_perm l nodeLe).filter _
    exact (h2.eq_of_length hperm.length_eq.symm).symm

/-! ### Sizes of the visible-node lists -/

theorem btd_children_length : ∀ (children : List MenuNode) (addr : Addr) (i : Nat) (pre : String),
    (btd_children children addr i pre).length = (preorderForest children).length := by
  refine btd_children.induct
    (fun node addr pre is_last =>
      (build_tree_display node addr pre is_last).length = (preorderNodes node).length)
    (fun children addr i pre =>
      (btd_children children addr i pre).length = (preorderForest children).length)
    ?_ ?_ ?_ ?_ ?_
  · intro name children addr pre is_last ih
    rw [build_tree_display, preorderNodes]
    simp [ih]
  · intro name script_fn selected category addr pre is_last
    rw [build_tree_display, preorderNodes]
    rfl
  · intro addr i pre
    rw [btd_children, preorderForest]
    rfl
  · intro c addr i pre ih
    rw [btd_children, preorderForest]
    simpa using ih
  · intro c c2 rest addr i pre ih1 ih2
    rw [btd_children, preorderForest]
    simp [ih1, ih2]

theorem simple_children_display_length :
    ∀ (children : List MenuNode) (addr : Addr) (i : Nat),
    (simple_children_display children addr i).length = children.length := by
  intro children
  induction children with
  | nil => intro addr i; rfl
  | cons c rest ih =>
      intro addr i
      show ((_, _) :: simple_children_display rest addr (i + 1)).length = _
      simp [ih]

/-- C5 (amended): at the root (path length 1, cursor on a menu node) the
visible list flattens the whole subtree and its length is the total count
of Item and Container nodes of that tree minus one — every node except
the root container itself; at any deeper level the length is exactly the
number of direct children of the current menu. -/
theorem get_visible_nodes_length (t : MenuNode) :
    (∀ name children, t = MenuNode.Menu name children →
       (get_visible_nodes t [[]]).length + 1 = (preorderNodes t).length)
    ∧ (∀ (p : List Addr) (a : Addr) (name : String) (children : List MenuNode),
        1 < p.length → p.getLast? = some a →
        getNode t a = some (MenuNode.Menu name children) →
        (get_visible_nodes t p).length = children.length) := by
  constructor
  · rintro name children rfl
    have h : get_visible_nodes (MenuNode.Menu name children) [[]]
        = btd_children children [] 0 "" := rfl
    rw [h, btd_children_length, preorderNodes]
    simp
  · intro p a name children hlen hlast hget
    rw [get_visible_nodes, hlast]
    simp only [hget]
    rw [if_neg (by omega), simple_children_display_length]

theorem get_visible_nodes_length_witness :
    ((get_visible_nodes demoTree [[]]).length + 1 = (preorderNodes demoTree).length)
    ∧ (get_visible_nodes demoTree [[], [1]]).length =
        [MenuNode.Item "Firefox" "ff-cmd" true ScriptCategory.General,
         MenuNode.Item "Wofi" "wofi-cmd" false ScriptCategory.General].length :=
  ⟨(get_visible_nodes_length demoTree).1 "Main Menu"
      [MenuNode.Item "epel" "epel-cmd" true ScriptCategory.Repository,
       MenuNode.Menu "Apps" [
         MenuNode.Item "Firefox" "ff-cmd" true ScriptCategory.General,
         MenuNode.Item "Wofi" "wofi-cmd" false ScriptCategory.General]] rfl,
   (get_visible_nodes_length demoTree).2 [[], [1]] [1] "Apps"
      [MenuNode.Item "Firefox" "ff-cmd" true ScriptCategory.General,
       MenuNode.Item "Wofi" "wofi-cmd" false ScriptCategory.General]
      (by decide) rfl rfl⟩

/-- C5 as stated is false at the root: on `demoTree` the root overview
lists 4 entries, while the whole tree contains 5 nodes (the root
container is rendered by the overview's header, not listed). -/
theorem visible_count_at_root_counterexample :
    (get_visible_nodes demoTree [[]]).length = 4
    ∧ (preorderNodes demoTree).length = 5 := by
  constructor
  · rfl
  · rfl

/-! ### Tree update and shape lemmas -/

theorem set_of_getElem? {α : Type} : ∀ (l : List α) (i : Nat) (x : α),
    l[i]? = some x → l.set i x = l := by
  intro l
  induction l with
  | nil => intro i x h; simp at h
  | cons a rest ih =>
      intro i x h
      cases i with
      | zero => simp at h; simp [List.set, h]
      | succ j =>
          simp only [List.getElem?_cons_succ] at h
          simp [List.set, ih j x h]

theorem updateNode_nil (f : MenuNode → MenuNode) (t : MenuNode) :
    updateNode f t [] = f t := by
  cases t <;> rfl

theorem updateNode_menu_some (f : MenuNode → MenuNode) (name : String)
    (children : List MenuNode) (i : Nat) (rest : Addr) (c : MenuNode)
    (hc : children[i]? = some c) :
    updateNode f (MenuNode.Menu name children) (i :: rest)
      = MenuNode.Menu name (children.set i (updateNode f c rest)) := by
  simp only [updateNode, hc]

theorem getNode_updateNode_self (f : MenuNode → MenuNode) :
    ∀ (a : Addr) (t x : MenuNode), getNode t a = some x →
      getNode (updateNode f t a) a = some (f x) := by
  intro a
  induction a with
  | nil =>
      intro t x h
      rw [getNode] at h
      injection h with h
      subst h
      rw [updateNode_nil, getNode]
  | cons i rest ih =>
      intro t x h
      cases t with
      | Item name sf sel cat => rw [getNode] at h; exact absurd h (by simp)
      | Menu name children =>
          rw [getNode] at h
          cases hc : children[i]? with
          | none => rw [hc] at h; simp at h
          | some c =>
              rw [hc] at h
              have hlen : i < children.length := (List.getElem?_eq_some.mp hc).1
              rw [updateNode_menu_some f name children i rest c hc, getNode]
              simp only [List.getElem?_set_self hlen]
              exact ih c x h

theorem updateNode_updateNode_cancel (f g : MenuNode → MenuNode)
    (hgf : ∀ x, g (f x) = x) :
    ∀ (a : Addr) (t : MenuNode), updateNode g (updateNode f t a) a = t := by
  intro a
  induction a with
  | nil => intro t; rw [updateNode_nil, updateNode_nil]; exact hgf t
  | cons i rest ih =>
      intro t
      cases t with
      | Item name sf sel cat => rfl
      | Menu name children =>
          cases hc : children[i]? with
          | none =>
              rw [updateNode]
              simp only [hc]
              rw [updateNode]
              simp only [hc]
          | some c =>
              have hlen : i < children.length := (List.getElem?_eq_some.mp hc).1
              rw [updateNode_menu_some f name children i rest c hc,
                updateNode_menu_some g name _ i rest (updateNode f c rest)
                  (by simp only [List.getElem?_set_self hlen]),
                List.set_set, ih c, set_of_getElem? children i c hc]

theorem shapeForest_eq_map (l : List MenuNode) : shapeForest l = l.map shapeOf := by
  induction l with
  | nil => rw [shapeForest]; rfl
  | cons c rest ih => rw [shapeForest, ih]; rfl

theorem shapeOf_toggleItem (x : MenuNode) : shapeOf (toggleItem x) = shapeOf x := by
  cases x <;> rfl

theorem shapeOf_updateNode (f : MenuNode → MenuNode)
    (hf : ∀ x, shapeOf (f x) = shapeOf x) :
    ∀ (a : Addr) (t : MenuNode), shapeOf (updateNode f t a) = shapeOf t := by
  intro a
  induction a with
  | nil => intro t; rw [updateNode_nil]; exact hf t
  | cons i rest ih =>
      intro t
      cases t with
      | Item name sf sel cat => rfl
      | Menu name children =>
          cases hc : children[i]? with
          | none => rw [updateNode]; simp only [hc]
          | some c =>
              rw [updateNode_menu_some f name children i rest c hc, shapeOf, shapeOf,
                shapeForest_eq_map, shapeForest_eq_map, List.map_set, ih c,
                set_of_getElem? (children.map shapeOf) i (shapeOf c)
                  (by simp [List.getElem?_map, hc])]

theorem getNode_shape_eq :
    ∀ (b : Addr) (t t' : MenuNode), shapeOf t = shapeOf t' →
      (getNode t b).map shapeOf = (getNode t' b).map shapeOf := by
  intro b
  induction b with
  | nil => intro t t' h; simpa [getNode] using h
  | cons i rest ih =>
      intro t t' h
      cases t with
      | Item name sf sel cat =>
          cases t' with
          | Item n2 s2 se2 c2 => rfl
          | Menu n2 ch2 => rw [shapeOf, shapeOf] at h; exact absurd h (by simp)
      | Menu name children =>
          cases t' with
          | Item n2 s2 se2 c2 => rw [shapeOf, shapeOf] at h; exact absurd h (by simp)
          | Menu n2 ch2 =>
              rw [shapeOf, shapeOf, shapeForest_eq_map, shapeForest_eq_map] at h
              have hmap : children.map shapeOf = ch2.map shapeOf := by
                injection h
              rw [getNode, getNode]
              have hget : (children[i]?).map shapeOf = (ch2[i]?).map shapeOf := by
                rw [← List.getElem?_map shapeOf, ← List.getElem?_map shapeOf, hmap]
              cases h1 : children[i]? with
              | none =>
                  cases h2 : ch2[i]? with
                  | none => rfl
                  | some c2 => rw [h1, h2] at hget; simp at hget
              | some c1 =>
                  cases h2 : ch2[i]? with
                  | none => rw [h1, h2] at hget; simp at hget
                  | some c2 =>
                      rw [h1, h2] at hget
                      simp at hget
                      exact ih c1 c2 hget

/-! ### Addresses appearing in visible-node lists -/

theorem btd_children_snd :
    ∀ (children : List MenuNode) (addr : Addr) (i : Nat) (pre : String),
    (btd_children children addr i pre).map Prod.snd
      = shapeForestAddrs (shapeForest children) addr i := by
  refine btd_children.induct
    (fun node addr pre is_last =>
      (build_tree_display node addr pre is_last).map Prod.snd
        = shapeAddrs (shapeOf node) addr)
    (fun children addr i pre =>
      (btd_children children addr i pre).map Prod.snd
        = shapeForestAddrs (shapeForest children) addr i)
    ?_ ?_ ?_ ?_ ?_
  · intro name children addr pre is_last ih
    rw [build_tree_display, shapeOf, shapeAddrs]
    simpa using ih
  · intro name script_fn selected category addr pre is_last
    rw [build_tree_display, shapeOf, shapeAddrs]
    rfl
  · intro addr i pre
    rw [btd_children, shapeForest, shapeForestAddrs]
    rfl
  · intro c addr i pre ih
    rw [btd_children, shapeForest, shapeForest, shapeForestAddrs]
    exact ih
  · intro c c2 rest addr i pre ih1 ih2
    rw [btd_children, shapeForest, shapeForest, shapeForestAddrs, List.map_append, ih1]
    rw [shapeForest] at ih2
    rw [ih2]

theorem simple_children_display_snd :
    ∀ (children : List MenuNode) (addr : Addr) (i : Nat),
    (simple_children_display children addr i).map Prod.snd
      = childAddrs children.length addr i := by
  intro children
  induction children with
  | nil => intro addr i; rfl
  | cons c rest ih =>
      intro addr i
      show ((_, addr ++ [i]) :: simple_children_display rest addr (i + 1)).map Prod.snd = _
      rw [List.map_cons, ih, List.length_cons, childAddrs]

theorem get_visible_nodes_eq (t : MenuNode) (p : List Addr) (cur : Addr)
    (name : String) (children : List MenuNode)
    (hlast : p.getLast? = some cur)
    (hget : getNode t cur = some (MenuNode.Menu name children)) :
    get_visible_nodes t p =
      if p.length = 1 then btd_children children cur 0 ""
      else simple_children_display children cur 0 := by
  rw [get_visible_nodes, hlast]
  simp only [hget]

theorem get_visible_nodes_snd (t t' : MenuNode) (p : List Addr)
    (hsh : shapeOf t = shapeOf t') :
    (get_visible_nodes t p).map Prod.snd = (get_visible_nodes t' p).map Prod.snd := by
  cases hlast : p.getLast? with
  | none => simp only [get_visible_nodes, hlast]
  | some cur =>
      have hget := getNode_shape_eq cur t t' hsh
      cases h1 : getNode t cur with
      | none =>
          cases h2 : getNode t' cur with
          | none => simp only [get_visible_nodes, hlast, h1, h2]
          | some x2 => rw [h1, h2] at hget; simp at hget
      | some x1 =>
          cases h2 : getNode t' cur with
          | none => rw [h1, h2] at hget; simp at hget
          | some x2 =>
              rw [h1, h2] at hget
              simp only [Option.map] at hget
              injection hget with hget
              cases x1 with
              | Item n1 s1 se1 c1 =>
                  cases x2 with
                  | Item n2 s2 se2 c2 => simp only [get_visible_nodes, hlast, h1, h2]
                  | Menu n2 ch2 =>
                      rw [shapeOf, shapeOf] at hget
                      exact absurd hget (by exact fun h => TreeShape.noConfusion h)
              | Menu n1 ch1 =>
                  cases x2 with
                  | Item n2 s2 se2 c2 =>
                      rw [shapeOf, shapeOf] at hget
                      exact absurd hget (by exact fun h => TreeShape.noConfusion h)
                  | Menu n2 ch2 =>
                      rw [shapeOf, shapeOf] at hget
                      have hforest : shapeForest ch1 = shapeForest ch2 := by
                        injection hget
                      have hlen : ch1.length = ch2.length := by
                        have h3 : (shapeForest ch1).length = (shapeForest ch2).length := by
                          rw [hforest]
                        rwa [shapeForest_eq_map, shapeForest_eq_map, List.length_map,
                          List.length_map] at h3
                      simp only [get_visible_nodes, hlast, h1, h2]
                      by_cases hp : p.length = 1
                      · rw [if_pos hp, if_pos hp, btd_children_snd, btd_children_snd, hforest]
                      · rw [if_neg hp, if_neg hp, simple_children_display_snd,
                          simple_children_display_snd, hlen]

theorem shapeForestAddrs_mem :
    ∀ (cs : List TreeShape) (a : Addr) (i : Nat) (e : Addr),
    e ∈ shapeForestAddrs cs a i → ∃ j, List.IsPrefix (a ++ [j]) e := by
  refine shapeForestAddrs.induct
    (fun sh a => ∀ e ∈ shapeAddrs sh a, List.IsPrefix a e)
    (fun cs a i => ∀ e ∈ shapeForestAddrs cs a i, ∃ j, List.IsPrefix (a ++ [j]) e)
    ?_ ?_ ?_ ?_ ?_
  · intro a e he
    rw [shapeAddrs] at he
    simp at he
    subst he
    exact List.prefix_refl _
  · intro cs a ih e he
    rw [shapeAddrs] at he
    rcases List.mem_cons.mp he with rfl | he
    · exact List.prefix_refl e
    · obtain ⟨j, hj⟩ := ih e he
      exact ((a.prefix_append [j]).trans hj)
  · intro a i e he
    rw [shapeForestAddrs] at he
    simp at he
  · intro c a i ih e he
    rw [shapeForestAddrs] at he
    exact ⟨i, ih e he⟩
  · intro c c2 rest a i ih1 ih2 e he
    rw [shapeForestAddrs] at he
    rcases List.mem_append.mp he with he | he
    · exact ⟨i, ih1 e he⟩
    · exact ih2 e he

theorem shapeForestAddrs_desc (cs : List TreeShape) (a : Addr) (i : Nat) (e : Addr)
    (he : e ∈ shapeForestAddrs cs a i) : isDescAddr a e := by
  obtain ⟨j, hj⟩ := shapeForestAddrs_mem cs a i e he
  constructor
  · exact (a.prefix_append [j]).trans hj
  · have := hj.length_le
    simp at this
    omega

theorem childAddrs_mem : ∀ (n : Nat) (a : Addr) (i : Nat) (e : Addr),
    e ∈ childAddrs n a i → ∃ j, e = a ++ [j] := by
  intro n
  induction n with
  | zero => intro a i e he; rw [childAddrs] at he; simp at he
  | succ m ih =>
      intro a i e he
      rw [childAddrs] at he
      rcases List.mem_cons.mp he with rfl | he
      · exact ⟨i, rfl⟩
      · exact ih a (i + 1) e he

/-! ### Navigation-step lemmas -/

theorem clamp_eq_of_clamped (s : AppNav) (hc : ClampedSel s) :
    (if (get_visible_nodes s.tree s.nav_path).length > 0 then
      min s.selected_index ((get_visible_nodes s.tree s.nav_path).length - 1)
     else 0) = s.selected_index := by
  rcases hc with ⟨h0, hsel⟩ | hlt
  · rw [h0]
    simp [hsel]
  · rw [if_pos (by omega)]
    exact Nat.min_eq_left (by omega)

theorem navInvariant_of_fields (s' s : AppNav) (ht : s'.tree = s.tree)
    (hp : s'.nav_path = s.nav_path) (h : NavInvariant s) : NavInvariant s' := by
  unfold NavInvariant at h ⊢
  rw [ht, hp]
  exact h

theorem getNode_menu_of_shape (t t' : MenuNode) (b : Addr)
    (hsh : shapeOf t = shapeOf t') (n : String) (ch : List MenuNode)
    (h : getNode t' b = some (MenuNode.Menu n ch)) :
    ∃ n' ch', getNode t b = some (MenuNode.Menu n' ch') := by
  have hmap := getNode_shape_eq b t t' hsh
  rw [h] at hmap
  cases hx : getNode t b with
  | none => rw [hx] at hmap; simp at hmap
  | some x =>
      rw [hx] at hmap
      cases x with
      | Item n1 s1 se1 c1 =>
          simp only [Option.map] at hmap
          injection hmap with hmap
          rw [shapeOf, shapeOf] at hmap
          exact absurd hmap (by exact fun hh => TreeShape.noConfusion hh)
      | Menu n1 ch1 => exact ⟨n1, ch1, rfl⟩

theorem navStep_back_long (s : AppNav) (h : 1 < s.nav_path.length) :
    navStep s NavKey.back = ⟨s.tree, s.nav_path.dropLast, 0⟩ := by
  simp only [navStep]
  rw [if_pos h]

theorem navStep_back_root (s : AppNav) (h : s.nav_path.length = 1) (hc : ClampedSel s) :
    navStep s NavKey.back = s := by
  simp only [navStep]
  rw [if_neg (by omega), clamp_eq_of_clamped s hc]

theorem navStep_enter_item (s : AppNav) (str : String) (a : Addr)
    (name sf : String) (sel : Bool) (cat : ScriptCategory)
    (hv : (get_visible_nodes s.tree s.nav_path)[s.selected_index]? = some (str, a))
    (hi : getNode s.tree a = some (MenuNode.Item name sf sel cat)) :
    navStep s NavKey.enter = ⟨updateNode toggleItem s.tree a, s.nav_path, s.selected_index⟩ := by
  have hlt : s.selected_index < (get_visible_nodes s.tree s.nav_path).length :=
    (List.getElem?_eq_some.mp hv).1
  have hcl : (if (get_visible_nodes s.tree s.nav_path).length > 0 then
      min s.selected_index ((get_visible_nodes s.tree s.nav_path).length - 1) else 0)
      = s.selected_index := by
    rw [if_pos (by omega)]
    exact Nat.min_eq_left (by omega)
  simp only [navStep, hcl, hv, hi]

theorem navStep_enter_of_none (s : AppNav)
    (hv : (get_visible_nodes s.tree s.nav_path)[
        if (get_visible_nodes s.tree s.nav_path).length > 0 then
          min s.selected_index ((get_visible_nodes s.tree s.nav_path).length - 1)
        else 0]? = none) :
    navStep s NavKey.enter =
      { s with selected_index :=
          if (get_visible_nodes s.tree s.nav_path).length > 0 then
            min s.selected_index ((get_visible_nodes s.tree s.nav_path).length - 1)
          else 0 } := by
  simp only [navStep, hv]

theorem navStep_enter_of_resolve_none (s : AppNav) (str : String) (a : Addr)
    (hv : (get_visible_nodes s.tree s.nav_path)[
        if (get_visible_nodes s.tree s.nav_path).length > 0 then
          min s.selected_index ((get_visible_nodes s.tree s.nav_path).length - 1)
        else 0]? = some (str, a))
    (hn : getNode s.tree a = none) :
    navStep s NavKey.enter =
      { s with selected_index :=
          if (get_visible_nodes s.tree s.nav_path).length > 0 then
            min s.selected_index ((get_visible_nodes s.tree s.nav_path).length - 1)
          else 0 } := by
  simp only [navStep, hv, hn]

theorem navStep_enter_of_menu (s : AppNav) (str : String) (a : Addr)
    (nm : String) (ch : List MenuNode)
    (hv : (get_visible_nodes s.tree s.nav_path)[
        if (get_visible_nodes s.tree s.nav_path).length > 0 then
          min s.selected_index ((get_visible_nodes s.tree s.nav_path).length - 1)
        else 0]? = some (str, a))
    (hn : getNode s.tree a = some (MenuNode.Menu nm ch)) :
    navStep s NavKey.enter = ⟨s.tree, s.nav_path ++ [a], 0⟩ := by
  simp only [navStep, hv, hn]

theorem navStep_enter_of_item (s : AppNav) (str : String) (a : Addr)
    (nm sf : String) (sel : Bool) (cat : ScriptCategory)
    (hv : (get_visible_nodes s.tree s.nav_path)[
        if (get_visible_nodes s.tree s.nav_path).length > 0 then
          min s.selected_index ((get_visible_nodes s.tree s.nav_path).length - 1)
        else 0]? = some (str, a))
    (hn : getNode s.tree a = some (MenuNode.Item nm sf sel cat)) :
    navStep s NavKey.enter =
      ⟨updateNode toggleItem s.tree a, s.nav_path,
        if (get_visible_nodes s.tree s.nav_path).length > 0 then
          min s.selected_index ((get_visible_nodes s.tree s.nav_path).length - 1)
        else 0⟩ := by
  simp only [navStep, hv, hn]

theorem navInvariant_step (s : AppNav) (k : NavKey) (h : NavInvariant s) :
    NavInvariant (navStep s k) := by
  obtain ⟨hne, hhead, hdesc, hchild, hres⟩ := h
  cases k with
  | down =>
      refine navInvariant_of_fields _ s ?_ ?_ ⟨hne, hhead, hdesc, hchild, hres⟩ <;>
        (simp only [navStep]; split <;> rfl)
  | up =>
      refine navInvariant_of_fields _ s ?_ ?_ ⟨hne, hhead, hdesc, hchild, hres⟩ <;>
        (simp only [navStep]; split <;> rfl)
  | enter =>
      cases hv : (get_visible_nodes s.tree s.nav_path)[
          if (get_visible_nodes s.tree s.nav_path).length > 0 then
            min s.selected_index ((get_visible_nodes s.tree s.nav_path).length - 1)
          else 0]? with
      | none =>
          rw [navStep_enter_of_none s hv]
          exact ⟨hne, hhead, hdesc, hchild, hres⟩
      | some pr =>
          obtain ⟨str, a⟩ := pr
          cases hn : getNode s.tree a with
          | none =>
              rw [navStep_enter_of_resolve_none s str a hv hn]
              exact ⟨hne, hhead, hdesc, hchild, hres⟩
          | some node =>
              cases node with
              | Item nm sf sel cat =>
                  rw [navStep_enter_of_item s str a nm sf sel cat hv hn]
                  refine ⟨hne, hhead, hdesc, hchild, ?_⟩
                  intro b hb
                  obtain ⟨n2, ch2, hb2⟩ := hres b hb
                  exact getNode_menu_of_shape _ _ b
                    (shapeOf_updateNode toggleItem shapeOf_toggleItem a s.tree) n2 ch2 hb2
              | Menu nm ch =>
                  rw [navStep_enter_of_menu s str a nm ch hv hn]
                  cases hl : s.nav_path.getLast? with
                  | none => exact absurd (List.getLast?_eq_none_iff.mp hl) hne
                  | some cur =>
                  obtain ⟨ncur, chcur, hcur⟩ :=
                    hres cur (List.mem_of_getLast?_eq_some hl)
                  have hgvn := get_visible_nodes_eq s.tree s.nav_path cur ncur chcur hl hcur
                  have hmem : a ∈ (get_visible_nodes s.tree s.nav_path).map Prod.snd :=
                    List.mem_map_of_mem Prod.snd (List.getElem?_mem hv)
                  have hhead' : (s.nav_path ++ [a]).head? = some ([] : Addr) := by
                    rw [List.head?_append, hhead]
                    rfl
                  have hne' : s.nav_path ++ [a] ≠ [] := by simp
                  have hres' : ∀ b ∈ s.nav_path ++ [a],
                      ∃ name children, getNode s.tree b = some (MenuNode.Menu name children) := by
                    intro b hb
                    rcases List.mem_append.mp hb with hb | hb
                    · exact hres b hb
                    · rw [List.mem_singleton.mp hb]
                      exact ⟨nm, ch, hn⟩
                  by_cases hp1 : s.nav_path.length = 1
                  · obtain ⟨x, hx⟩ := List.length_eq_one.mp hp1
                    have hxcur : x = cur := by
                      rw [hx] at hl
                      simpa using hl
                    subst hxcur
                    rw [hgvn, if_pos hp1, btd_children_snd] at hmem
                    have hdesc_a : isDescAddr x a :=
                      shapeForestAddrs_desc (shapeForest chcur) x 0 a hmem
                    refine ⟨hne', hhead', ?_, ?_, hres'⟩
                    · refine List.chain'_append.mpr
                        ⟨hdesc, List.chain'_singleton a, ?_⟩
                      intro p hp q hq
                      rw [hl] at hp
                      simp only [Option.mem_def, Option.some_inj] at hp
                      simp only [List.head?_cons, Option.mem_def, Option.some_inj] at hq
                      rw [← hp, ← hq]
                      exact hdesc_a
                    · rw [hx]
                      exact List.chain'_singleton a
                  · rw [hgvn, if_neg hp1, simple_children_display_snd] at hmem
                    obtain ⟨j, hj⟩ := childAddrs_mem chcur.length cur 0 a hmem
                    have hdesc_a : isDescAddr cur a := by
                      rw [hj]
                      exact ⟨List.prefix_append cur [j], by simp⟩
                    have hchild_a : isChildAddr cur a := ⟨j, hj⟩
                    refine ⟨hne', hhead', ?_, ?_, hres'⟩
                    · refine List.chain'_append.mpr
                        ⟨hdesc, List.chain'_singleton a, ?_⟩
                      intro p hp q hq
                      rw [hl] at hp
                      simp only [Option.mem_def, Option.some_inj] at hp
                      simp only [List.head?_cons, Option.mem_def, Option.some_inj] at hq
                      rw [← hp, ← hq]
                      exact hdesc_a
                    · have htail : (s.nav_path ++ [a]).tail = s.nav_path.tail ++ [a] := by
                        cases hp0 : s.nav_path with
                        | nil => exact absurd hp0 hne
                        | cons x xs => rfl
                      rw [htail]
                      refine List.chain'_append.mpr
                        ⟨hchild, List.chain'_singleton a, ?_⟩
                      intro p hp q hq
                      rw [List.getLast?_tail, if_neg hp1, hl] at hp
                      simp only [Option.mem_def, Option.some_inj] at hp
                      simp only [List.head?_cons, Option.mem_def, Option.some_inj] at hq
                      rw [← hp, ← hq]
                      exact hchild_a
  | back =>
      by_cases hlen : 1 < s.nav_path.length
      · rw [navStep_back_long s hlen]
        obtain ⟨x, xs, hpath⟩ : ∃ x xs, s.nav_path = x :: xs := by
          cases hp0 : s.nav_path with
          | nil => rw [hp0] at hlen; simp at hlen
          | cons x xs => exact ⟨x, xs, rfl⟩
        have hxs : xs ≠ [] := by
          rw [hpath] at hlen
          simp at hlen
          exact List.ne_nil_of_length_pos (by omega)
        rw [hpath] at hhead hdesc hchild hres ⊢
        have hdl : (x :: xs).dropLast = x :: xs.dropLast :=
          List.dropLast_cons_of_ne_nil hxs
        refine ⟨?_, ?_, ?_, ?_, ?_⟩
        · show (x :: xs).dropLast ≠ []
          rw [hdl]
          simp
        · show ((x :: xs).dropLast).head? = some []
          rw [hdl]
          simpa using hhead
        · exact List.Chain'.prefix hdesc (List.dropLast_prefix _)
        · show List.Chain' isChildAddr ((x :: xs).dropLast).tail
          rw [hdl]
          exact List.Chain'.prefix hchild (List.dropLast_prefix xs)
        · intro b hb
          exact hres b ((List.dropLast_sublist _).subset hb)
      · simp only [navStep]
        rw [if_neg hlen]
        exact ⟨hne, hhead, hdesc, hchild, hres⟩

/-- C6 (amended): from the initial state on any root menu, every state
reachable by the handled key events has a non-empty path starting at the
root; every element resolves to a `Menu` of the current tree; each
element is a strict descendant of its predecessor; and from the second
transition on each element is a direct child of its predecessor. The
first pushed element need not be a direct child of the root: the root
overview lists the whole tree, so entering there can push any strict
descendant. -/
theorem nav_path_invariant (name : String) (children : List MenuNode) (s : AppNav)
    (h : NavReachable (MenuNode.Menu name children) s) : NavInvariant s := by
  induction h with
  | init =>
      refine ⟨by simp, rfl, List.chain'_singleton _, List.chain'_nil, ?_⟩
      intro a ha
      rw [List.mem_singleton.mp ha]
      exact ⟨name, children, rfl⟩
  | step s' k hr ih => exact navInvariant_step s' k ih

theorem nav_path_invariant_witness :
    NavInvariant ⟨demoTree, [[]], 0⟩ :=
  nav_path_invariant "Main Menu"
    [MenuNode.Item "epel" "epel-cmd" true ScriptCategory.Repository,
     MenuNode.Menu "Apps" [
       MenuNode.Item "Firefox" "ff-cmd" true ScriptCategory.General,
       MenuNode.Item "Wofi" "wofi-cmd" false ScriptCategory.General]]
    ⟨demoTree, [[]], 0⟩ NavReachable.init

/-- C6 as stated is false: on `nestedTree`, pressing Down then Enter at
the root overview pushes the depth-two container `B` (address `[0, 0]`)
directly onto the path, so the reachable state's path `[[], [0, 0]]` is
not a parent-child chain. -/
theorem nav_path_parent_child_counterexample :
    NavReachable nestedTree jumpedState
    ∧ jumpedState.nav_path = [[], [0, 0]]
    ∧ ¬ PathIsParentChildChain jumpedState := by
  refine ⟨?_, ?_, ?_⟩
  · exact NavReachable.step _ NavKey.enter (NavReachable.step _ NavKey.down NavReachable.init)
  · rfl
  · intro hpc
    obtain ⟨h1, h2, h3⟩ := hpc
    rw [show jumpedState.nav_path = [[], [0, 0]] from rfl] at h3
    rcases List.chain'_cons.mp h3 with ⟨hc, -⟩
    obtain ⟨i, hi⟩ := hc
    simp at hi

/-- C7: the `Left | Backspace` handler pops the last path element and
resets `selected_index` to 0 when the path is longer than 1; at the root
(path length 1) it is a no-op on a clamped state, and the path never
shrinks below length 1. -/
theorem back_pops_or_noop (s : AppNav) :
    (1 < s.nav_path.length →
       navStep s NavKey.back = ⟨s.tree, s.nav_path.dropLast, 0⟩)
    ∧ (s.nav_path.length = 1 → ClampedSel s → navStep s NavKey.back = s)
    ∧ (1 ≤ s.nav_path.length → 1 ≤ (navStep s NavKey.back).nav_path.length) := by
  refine ⟨fun h => navStep_back_long s h, fun h hc => navStep_back_root s h hc, ?_⟩
  intro h1
  by_cases hlen : 1 < s.nav_path.length
  · rw [navStep_back_long s hlen]
    simp only [List.length_dropLast]
    omega
  · have hp : (navStep s NavKey.back).nav_path = s.nav_path := by
      simp only [navStep]
      rw [if_neg hlen]
    rw [hp]
    exact h1

theorem back_pops_or_noop_witness :
    navStep ⟨demoTree, [[], [1]], 5⟩ NavKey.back = ⟨demoTree, [[]], 0⟩
    ∧ navStep ⟨demoTree, [[]], 2⟩ NavKey.back = ⟨demoTree, [[]], 2⟩ :=
  ⟨(back_pops_or_noop ⟨demoTree, [[], [1]], 5⟩).1 (by decide),
   (back_pops_or_noop ⟨demoTree, [[]], 2⟩).2.1 rfl (by right; decide)⟩

/-- C8: when the cursor points at an Item, `enter` toggles only that
item's flag in place — the path and index do not move — and a second
`enter` restores the entire state, hence also the generated script for
either reboot flag. -/
theorem toggle_item_involutive (s : AppNav) (str : String) (a : Addr)
    (name sf : String) (sel : Bool) (cat : ScriptCategory)
    (hv : (get_visible_nodes s.tree s.nav_path)[s.selected_index]? = some (str, a))
    (hi : getNode s.tree a = some (MenuNode.Item name sf sel cat)) :
    ((navStep s NavKey.enter).nav_path = s.nav_path
      ∧ (navStep s NavKey.enter).selected_index = s.selected_index)
    ∧ navStep (navStep s NavKey.enter) NavKey.enter = s
    ∧ ∀ (os : OsDistribution) (r : Bool),
        generate_commands os (navStep (navStep s NavKey.enter) NavKey.enter).tree r
          = generate_commands os s.tree r := by
  have h1 := navStep_enter_item s str a name sf sel cat hv hi
  have hsh : shapeOf (updateNode toggleItem s.tree a) = shapeOf s.tree :=
    shapeOf_updateNode toggleItem shapeOf_toggleItem a s.tree
  have hsnd := get_visible_nodes_snd (updateNode toggleItem s.tree a) s.tree s.nav_path hsh
  have e1 : ((get_visible_nodes (updateNode toggleItem s.tree a) s.nav_path)[
      s.selected_index]?).map Prod.snd = some a := by
    have e0 : ((get_visible_nodes (updateNode toggleItem s.tree a) s.nav_path).map
        Prod.snd)[s.selected_index]? = some a := by
      rw [hsnd, List.getElem?_map, hv]
      rfl
    rwa [List.getElem?_map] at e0
  obtain ⟨str', hv'⟩ : ∃ str',
      (get_visible_nodes (updateNode toggleItem s.tree a) s.nav_path)[
        s.selected_index]? = some (str', a) := by
    cases hx : (get_visible_nodes (updateNode toggleItem s.tree a) s.nav_path)[
        s.selected_index]? with
    | none => rw [hx] at e1; simp at e1
    | some pr =>
        obtain ⟨str', a'⟩ := pr
        rw [hx] at e1
        simp at e1
        subst e1
        exact ⟨str', rfl⟩
  have hi' : getNode (updateNode toggleItem s.tree a) a
      = some (MenuNode.Item name sf (!sel) cat) := by
    have h := getNode_updateNode_self toggleItem a s.tree _ hi
    simpa [toggleItem] using h
  have h2 := navStep_enter_item
    ⟨updateNode toggleItem s.tree a, s.nav_path, s.selected_index⟩
    str' a name sf (!sel) cat hv' hi'
  have hcancel : updateNode toggleItem (updateNode toggleItem s.tree a) a = s.tree :=
    updateNode_updateNode_cancel toggleItem toggleItem
      (by intro x; cases x <;> simp [toggleItem]) a s.tree
  refine ⟨⟨by rw [h1], by rw [h1]⟩, ?_, ?_⟩
  · rw [h1, h2, hcancel]
  · intro os r
    rw [h1, h2, hcancel]

theorem toggle_item_involutive_witness :
    navStep (navStep ⟨demoTree, [[]], 0⟩ NavKey.enter) NavKey.enter
      = ⟨demoTree, [[]], 0⟩ :=
  (toggle_item_involutive ⟨demoTree, [[]], 0⟩ "├─ [x] epel" [0]
    "epel" "epel-cmd" true ScriptCategory.Repository rfl rfl).2.1

end ElInit

